import Mathlib

/-!
Verification of the trax-by-lkn frontend stores against their
natural-language specification.

The development shallowly embeds the Pinia stores of the repository:

* `src/src/stores/setlist.ts` — setlist management (add / remove /
  reorder of song ids, optimistic local state, error recording);
* `src/src/stores/playback.ts` — playback state (seek, master and
  per-stem volume with clamping, stem mute toggling, progress getter);
* the keyboard-shortcut composable (`handleKeyDown`) — the seek and
  mute-all key bindings.

Backend Tauri commands (`invoke(...)`) are asynchronous calls into a
Rust process that is not part of the frontend sources; every store
action is therefore parameterised by the backend call's outcome, an
`Except String Unit` carrying the rejection message on failure.  Where
a property depends on backend behaviour that the repository does not
ship (the real-time mixer's solo arithmetic, the metadata store's
uniqueness constraints) the missing part is modelled from the spec and
marked as such in its doc comment.

Numeric values coming from JavaScript `number`s (positions, durations,
gains) are modelled as rationals; timestamps as integers.
-/

namespace Trax

/-- Outcome of a backend `invoke` call: success, or a rejection whose
string models the thrown error's message. -/
abbrev InvokeResult := Except String Unit

/-- Song model, from `src/src/types/library.ts` (`interface Song`). -/
structure Song where
  id : String
  name : String
  artist : Option String
  duration : ℚ
  tempo : Option ℚ
  key : Option String
  time_signature : Option String
  mixdown_path : Option String
  created_at : Int
  updated_at : Int
deriving DecidableEq

/-- Stem model, from `src/src/types/library.ts` (`interface Stem`).
The optional UI-only fields `level` and `is_solo` are not read or
written by any store action embedded here and are omitted. -/
structure Stem where
  id : String
  song_id : String
  name : String
  file_path : String
  file_size : Nat
  sample_rate : Nat
  channels : Nat
  duration : ℚ
  volume : ℚ
  is_muted : Bool
  display_order : Nat
deriving DecidableEq

/-- Setlist model, from `src/src/types/library.ts` (`interface Setlist`). -/
structure Setlist where
  id : String
  name : String
  created_at : Int
  updated_at : Int
  song_ids : List String
deriving DecidableEq

/-- The slice of the setlist store's state
(`src/src/stores/setlist.ts`) that its song-membership actions read
and write: `currentSetlist`, `loading` and `error`. -/
structure SetlistState where
  currentSetlist : Option Setlist
  loading : Bool
  error : Option String
deriving DecidableEq

/-- `addSongToSetlist` (`src/src/stores/setlist.ts:139-169`): throws
when no setlist is loaded; otherwise awaits the backend
`add_song_to_setlist` command and, on success, pushes `songId` onto
`song_ids` and refreshes `updated_at`; on failure records the message
in `error` and rethrows.  `loading` ends `false` either way
(`finally`).  The debounced auto-save re-persists the same `song_ids`
and does not alter the sequence, so it is not modelled. -/
def addSongToSetlist (invokeResult : InvokeResult) (songId : String) (now : Int)
    (st : SetlistState) : SetlistState × InvokeResult :=
  match st.currentSetlist with
  | none => (st, .error "No setlist loaded")
  | some cur =>
    match invokeResult with
    | .ok _ =>
        ({ st with
            currentSetlist :=
              some { cur with song_ids := cur.song_ids ++ [songId], updated_at := now },
            loading := false, error := none }, .ok ())
    | .error e =>
        ({ st with loading := false, error := some e }, .error e)

/-- Modelled from the spec: the backend `add_song_to_setlist` command
(Rust, not under `src/`).  The persistent store declares a unique
constraint on `(setlist_id, song_id)` and surfaces `UniqueViolation`,
so adding a song id already present in the setlist rejects and any
other add succeeds. -/
def backendAddSongResult (st : SetlistState) (songId : String) : InvokeResult :=
  match st.currentSetlist with
  | none => .ok ()
  | some cur => if songId ∈ cur.song_ids then .error "UniqueViolation" else .ok ()

/-- The frontend `addSongToSetlist` composed with the spec-modelled
backend outcome `backendAddSongResult`. -/
def addSongToSetlistSpec (songId : String) (now : Int) (st : SetlistState) :
    SetlistState × InvokeResult :=
  addSongToSetlist (backendAddSongResult st songId) songId now st

/-- `removeSongFromSetlist` (`src/src/stores/setlist.ts:171-196`): on
backend success replaces `song_ids` by its filtering to ids different
from `songId` (JS `filter(id => id !== songId)`, removing every
occurrence) and refreshes `updated_at`; on failure records the message
and rethrows. -/
def removeSongFromSetlist (invokeResult : InvokeResult) (songId : String) (now : Int)
    (st : SetlistState) : SetlistState × InvokeResult :=
  match st.currentSetlist with
  | none => (st, .error "No setlist loaded")
  | some cur =>
    match invokeResult with
    | .ok _ =>
        ({ st with
            currentSetlist :=
              some { cur with
                      song_ids := cur.song_ids.filter (fun i => i != songId),
                      updated_at := now },
            loading := false, error := none }, .ok ())
    | .error e =>
        ({ st with loading := false, error := some e }, .error e)

/-- The reordered id list computed by `reorderSongs`
(`src/src/stores/setlist.ts:203-205`):
`songIds.splice(oldIndex, 1)` removes the element at `oldIndex` and
`songIds.splice(newIndex, 0, movedSong)` reinserts it at `newIndex`
(JS clamps an insertion index past the end to the end, hence the
`min`).  The store only calls this with `oldIndex` in bounds (drag
events); the `none` branch guards the embedding's totality. -/
def reorderedSongIds (ids : List String) (oldIndex newIndex : ℕ) : List String :=
  match ids[oldIndex]? with
  | none => ids
  | some moved =>
      (ids.eraseIdx oldIndex).insertIdx (min newIndex (ids.eraseIdx oldIndex).length) moved

/-- `reorderSongs` (`src/src/stores/setlist.ts:198-225`): computes the
spliced id list, sends it to the backend `reorder_setlist_songs`
command, and only on success installs it locally together with a fresh
`updated_at`; on failure records the message in `error` and rethrows,
leaving `currentSetlist` untouched. -/
def reorderSongs (invokeResult : InvokeResult) (oldIndex newIndex : ℕ) (now : Int)
    (st : SetlistState) : SetlistState × InvokeResult :=
  match st.currentSetlist with
  | none => (st, .error "No setlist loaded")
  | some cur =>
    match invokeResult with
    | .ok _ =>
        ({ st with
            currentSetlist :=
              some { cur with
                      song_ids := reorderedSongIds cur.song_ids oldIndex newIndex,
                      updated_at := now },
            loading := false, error := none }, .ok ())
    | .error e =>
        ({ st with loading := false, error := some e }, .error e)

/-- The slice of the playback store's state
(`src/src/stores/playback.ts:8-16`) read and written by the embedded
actions. -/
structure PlaybackState where
  selectedSong : Option Song
  currentSong : Option Song
  isPlaying : Bool
  currentPosition : ℚ
  duration : ℚ
  stems : List Stem
  volume : ℚ
  isLoadingStems : Bool
deriving DecidableEq

/-- The store's initial state (`src/src/stores/playback.ts:9-16`). -/
def initialPlaybackState : PlaybackState :=
  { selectedSong := none
    currentSong := none
    isPlaying := false
    currentPosition := 0
    duration := 0
    stems := []
    volume := 0.8
    isLoadingStems := false }

/-- The `progress` getter (`src/src/stores/playback.ts:32-35`):
`0` when `duration` is `0`, else `currentPosition / duration * 100`. -/
def progress (st : PlaybackState) : ℚ :=
  if st.duration = 0 then 0 else st.currentPosition / st.duration * 100

/-- `seek` (`src/src/stores/playback.ts:148-156`): awaits the backend
`seek_to_position` command and, on success, stores the requested
position verbatim in `currentPosition`; on failure rethrows leaving
the state unchanged.  No other field is touched. -/
def seek (invokeResult : InvokeResult) (position : ℚ) (st : PlaybackState) :
    PlaybackState × InvokeResult :=
  match invokeResult with
  | .ok _ => ({ st with currentPosition := position }, .ok ())
  | .error e => (st, .error e)

/-- `setVolume` (`src/src/stores/playback.ts:158-160`): stores
`Math.max(0, Math.min(1, newVolume))`. -/
def setVolume (newVolume : ℚ) (st : PlaybackState) : PlaybackState :=
  { st with volume := max 0 (min 1 newVolume) }

/-- The clamped volume `setStemVolume` computes and sends to the
backend `set_stem_volume` command
(`src/src/stores/playback.ts:164-165`). -/
def setStemVolumePayload (stemVolume : ℚ) : ℚ :=
  max 0 (min 1 stemVolume)

/-- JS `stems.value.find(s => s.id === stemId)` followed by a mutation
of the found object: rewrite the first stem whose id matches, leave
the rest untouched. -/
def updateFirstStem (stemId : String) (f : Stem → Stem) : List Stem → List Stem
  | [] => []
  | s :: rest =>
      if s.id = stemId then f s :: rest else s :: updateFirstStem stemId f rest

/-- `stems.value.find(s => s.id === stemId)`: the first stem with the
given id, if any. -/
def findStem (stemId : String) (stems : List Stem) : Option Stem :=
  stems.find? (fun s => s.id == stemId)

/-- `setStemVolume` (`src/src/stores/playback.ts:162-176`): clamps the
requested volume to `[0, 1]`, sends the clamped value to the backend,
and on success stores it on the found stem; on failure rethrows with
the local state unchanged. -/
def setStemVolume (invokeResult : InvokeResult) (stemId : String) (stemVolume : ℚ)
    (st : PlaybackState) : PlaybackState × InvokeResult :=
  match invokeResult with
  | .ok _ =>
      ({ st with
          stems := updateFirstStem stemId
            (fun s => { s with volume := setStemVolumePayload stemVolume }) st.stems },
        .ok ())
  | .error e => (st, .error e)

/-- Flip a stem's mute flag (`stem.is_muted = !stem.is_muted`,
`src/src/stores/playback.ts:185`). -/
def flipMute (s : Stem) : Stem :=
  { s with is_muted := !s.is_muted }

/-- `toggleStemMute` (`src/src/stores/playback.ts:178-191`): awaits
the backend `toggle_stem_mute` command and, on success, flips
`is_muted` on the found stem; on failure rethrows with the local state
unchanged. -/
def toggleStemMute (invokeResult : InvokeResult) (stemId : String)
    (st : PlaybackState) : PlaybackState × InvokeResult :=
  match invokeResult with
  | .ok _ =>
      ({ st with stems := updateFirstStem stemId flipMute st.stems }, .ok ())
  | .error e => (st, .error e)

/-! ### Keyboard shortcuts

From the `useKeyboardShortcuts` composable (`src/unnamed/part_013`).
The handler first returns when the event targets a text input; the
seek bindings clamp the requested position before calling
`seek`; the mute-all binding iterates the stem list synchronously and
requests one `toggleStemMute` per stem whose `is_muted` is `false` at
that moment (the flips land after the synchronous loop, once each
backend call resolves). -/

/-- The position requested by the ArrowLeft binding
(`src/unnamed/part_013:35`): `Math.max(0, currentPosition - 5)`. -/
def arrowLeftSeekTarget (st : PlaybackState) : ℚ :=
  max 0 (st.currentPosition - 5)

/-- The position requested by the ArrowRight binding
(`src/unnamed/part_013:44-47`): `Math.min(duration, currentPosition + 5)`. -/
def arrowRightSeekTarget (st : PlaybackState) : ℚ :=
  min st.duration (st.currentPosition + 5)

/-- The mute-toggle requests issued by the mute-all loop
(`src/unnamed/part_013:57-61`): the ids of exactly the stems whose
`is_muted` is `false`, in list order. -/
def muteToggleRequests (stems : List Stem) : List String :=
  (stems.filter (fun s => !s.is_muted)).map (fun s => s.id)

/-- The toggle requests issued by `handleKeyDown` on the key m or M
(`src/unnamed/part_013:52-63`): none when the event targets a text
input or the stem list is empty, else one request per currently
unmuted stem. -/
def handleKeyDownMute (isTextInput : Bool) (stems : List Stem) : List String :=
  if isTextInput then []
  else if stems.length > 0 then muteToggleRequests stems
  else []

/-- Apply a sequence of (successful) `toggleStemMute` calls to the
store, in order. -/
def applyMuteToggles (reqs : List String) (st : PlaybackState) : PlaybackState :=
  reqs.foldl (fun acc stemId => (toggleStemMute (.ok ()) stemId acc).1) st

/-! ### Mixer solo arithmetic (spec-modelled)

The real-time mixer lives in the Rust backend, which the repository
does not ship under `src/`; the frontend's `toggleStemSolo`
(`src/src/stores/playback.ts:193-203`) only forwards to it.  The
definitions below are modelled from the spec. -/

/-- Modelled from the spec: the mixer's per-stem runtime mix state
(gain, mute, solo) together with the stem's PCM samples, indexed by
interleaved sample position. -/
structure StemMix where
  gain : ℚ
  muted : Bool
  solo : Bool
  pcm : ℕ → ℚ

/-- Modelled from the spec: `any_solo = ∃ stem. solo`. -/
def anySolo (stems : List StemMix) : Bool :=
  stems.any (fun s => s.solo)

/-- Modelled from the spec:
`effective_gain = muted ∨ (any_solo ∧ ¬solo) ? 0 : gain`. -/
def effectiveGain (any_solo : Bool) (s : StemMix) : ℚ :=
  if s.muted || (any_solo && !s.solo) then 0 else s.gain

/-- Modelled from the spec: one stem's contribution to the mixed
output sample at index `idx`, `stem.pcm[idx] * effective_gain`. -/
def stemContribution (any_solo : Bool) (s : StemMix) (idx : ℕ) : ℚ :=
  s.pcm idx * effectiveGain any_solo s

/-- Modelled from the spec: the mixed output sample at index `idx`
before master gain and clamping, `Σ stems (pcm[idx] * effective_gain)`. -/
def mixSample (stems : List StemMix) (idx : ℕ) : ℚ :=
  (stems.map (fun s => stemContribution (anySolo stems) s idx)).sum

/-! ### Concrete states used by witnesses and counterexamples -/

/-- A loaded three-song setlist. -/
def demoSetlist : Setlist :=
  { id := "sl1", name := "Sunday", created_at := 0, updated_at := 0,
    song_ids := ["a", "b", "c"] }

/-- Setlist store state with `demoSetlist` loaded. -/
def demoSetlistState : SetlistState :=
  { currentSetlist := some demoSetlist, loading := false, error := none }

/-- An unmuted stem. -/
def stemA : Stem :=
  { id := "stem-1", song_id := "song-1", name := "Vocals",
    file_path := "/a.wav", file_size := 1024, sample_rate := 44100,
    channels := 2, duration := 180, volume := 1, is_muted := false,
    display_order := 0 }

/-- A muted stem. -/
def stemB : Stem :=
  { id := "stem-2", song_id := "song-1", name := "Drums",
    file_path := "/b.wav", file_size := 2048, sample_rate := 44100,
    channels := 2, duration := 180, volume := 0, is_muted := true,
    display_order := 1 }

/-- Playback state holding `stemA` and `stemB`. -/
def stemState : PlaybackState :=
  { initialPlaybackState with stems := [stemA, stemB] }

/-- Playback state with a loaded duration of 10, used to probe `seek`. -/
def seekProbeState : PlaybackState :=
  { initialPlaybackState with duration := 10, isPlaying := true }

/-! ### Helper lemmas -/

theorem flipMute_id (s : Stem) : (flipMute s).id = s.id := rfl

theorem flipMute_flipMute (s : Stem) : flipMute (flipMute s) = s := by
  cases s
  simp [flipMute]

theorem findStem_updateFirstStem (stemId : String) (f : Stem → Stem)
    (hf : ∀ s, (f s).id = s.id) (l : List Stem) :
    findStem stemId (updateFirstStem stemId f l) = (findStem stemId l).map f := by
  induction l with
  | nil => rfl
  | cons s rest ih =>
    by_cases h : s.id = stemId
    · simp [updateFirstStem, findStem, h, hf s]
    · simp only [updateFirstStem, if_neg h, findStem] at ih ⊢
      rw [List.find?_cons_of_neg _ (by simp [h]), List.find?_cons_of_neg _ (by simp [h]), ih]

theorem updateFirstStem_updateFirstStem (stemId : String) (f : Stem → Stem)
    (hf : ∀ s, (f s).id = s.id) (hff : ∀ s, f (f s) = s) (l : List Stem) :
    updateFirstStem stemId f (updateFirstStem stemId f l) = l := by
  induction l with
  | nil => rfl
  | cons s rest ih =>
    by_cases h : s.id = stemId
    · simp [updateFirstStem, h, hf s, hff s]
    · simp [updateFirstStem, h, ih]

/-! ### Claim theorems -/

/-- C10: the `progress` getter is total and guards against division by
zero — when `duration = 0` it returns `0`, and otherwise it returns
`(currentPosition / duration) * 100`. -/
theorem progress_total_no_div_by_zero (st : PlaybackState) :
    (st.duration = 0 → progress st = 0) ∧
    (st.duration ≠ 0 → progress st = st.currentPosition / st.duration * 100) := by
  constructor <;> intro h <;> simp [progress, h]

theorem progress_total_no_div_by_zero_witness :
    initialPlaybackState.duration = 0 ∧ progress initialPlaybackState = 0 :=
  ⟨rfl, (progress_total_no_div_by_zero initialPlaybackState).1 rfl⟩

/-- C2 counterexample: `seek` does not clamp.  On a state with
duration `10`, a successful `seek (-3)` stores `-3` in
`currentPosition`, while `-3` clamped to `[0, 10]` is `0`. -/
theorem seek_does_not_clamp_counterexample :
    (seek (Except.ok ()) (-3) seekProbeState).1.currentPosition = -3 ∧
    max 0 (min seekProbeState.duration (-3)) = 0 ∧ ((-3 : ℚ) ≠ 0) := by
  refine ⟨rfl, ?_, by norm_num⟩
  norm_num [seekProbeState, initialPlaybackState]

/-- C2 (amended): a successful `seek t` stores the requested position
`t` verbatim (no clamping) and leaves the transport state unchanged;
the keyboard seek bindings clamp before calling `seek` (their targets
lie in `[0, duration]` whenever the current position does), so a
requested position already in `[0, duration]` round-trips to itself —
equal to its own clamp. -/
theorem seek_stores_request_transport_unchanged (st : PlaybackState) (t : ℚ)
    (hpos : 0 ≤ st.currentPosition) (hdur : st.currentPosition ≤ st.duration) :
    (seek (Except.ok ()) t st).1.currentPosition = t ∧
    (seek (Except.ok ()) t st).1.isPlaying = st.isPlaying ∧
    (seek (Except.ok ()) t st).2 = Except.ok () ∧
    (0 ≤ arrowLeftSeekTarget st ∧ arrowLeftSeekTarget st ≤ st.duration) ∧
    (0 ≤ arrowRightSeekTarget st ∧ arrowRightSeekTarget st ≤ st.duration) ∧
    (0 ≤ t → t ≤ st.duration →
      (seek (Except.ok ()) t st).1.currentPosition = max 0 (min st.duration t)) := by
  refine ⟨rfl, rfl, rfl, ⟨le_max_left _ _, ?_⟩, ⟨?_, min_le_left _ _⟩, ?_⟩
  · exact max_le (le_trans hpos hdur) (by linarith)
  · exact le_min (le_trans hpos hdur) (by linarith)
  · intro h1 h2
    rw [min_eq_right h2, max_eq_right h1]
    rfl

theorem seek_stores_request_transport_unchanged_witness :
    0 ≤ seekProbeState.currentPosition ∧
    seekProbeState.currentPosition ≤ seekProbeState.duration ∧
    (seek (Except.ok ()) 7 seekProbeState).1.currentPosition = 7 := by
  have h1 : 0 ≤ seekProbeState.currentPosition := by
    norm_num [seekProbeState, initialPlaybackState]
  have h2 : seekProbeState.currentPosition ≤ seekProbeState.duration := by
    norm_num [seekProbeState, initialPlaybackState]
  exact ⟨h1, h2, (seek_stores_request_transport_unchanged seekProbeState 7 h1 h2).1⟩

/-- C6: `setVolume` stores the master volume clamped to `[0, 1]`, and
`setStemVolume` clamps the requested stem volume to `[0, 1]` both in
the value sent to the backend and in the value stored on the found
stem. -/
theorem gains_clamped (v : ℚ) (stemId : String) (st : PlaybackState) :
    (setVolume v st).volume = max 0 (min 1 v) ∧
    0 ≤ (setVolume v st).volume ∧ (setVolume v st).volume ≤ 1 ∧
    setStemVolumePayload v = max 0 (min 1 v) ∧
    0 ≤ setStemVolumePayload v ∧ setStemVolumePayload v ≤ 1 ∧
    (∀ s, findStem stemId st.stems = some s →
      findStem stemId (setStemVolume (Except.ok ()) stemId v st).1.stems =
        some { s with volume := max 0 (min 1 v) }) := by
  refine ⟨rfl, le_max_left _ _, max_le zero_le_one (min_le_left _ _), rfl,
    le_max_left _ _, max_le zero_le_one (min_le_left _ _), ?_⟩
  intro s hfound
  show findStem stemId
      (updateFirstStem stemId (fun s => { s with volume := setStemVolumePayload v }) st.stems)
    = _
  rw [findStem_updateFirstStem stemId
        (fun s => { s with volume := setStemVolumePayload v }) (fun s => rfl), hfound]
  rfl

theorem gains_clamped_witness :
    findStem "stem-1" stemState.stems = some stemA ∧
    findStem "stem-1" (setStemVolume (Except.ok ()) "stem-1" 2 stemState).1.stems =
      some { stemA with volume := max 0 (min 1 2) } := by
  have hfound : findStem "stem-1" stemState.stems = some stemA := by decide
  exact ⟨hfound, (gains_clamped 2 "stem-1" stemState).2.2.2.2.2.2 stemA hfound⟩

/-- C7: when the backend reorder command rejects, `reorderSongs`
leaves the loaded setlist (its `song_ids` and `updated_at` included)
exactly as it was, records the failure message in the store's `error`
field, and rethrows the error to the caller. -/
theorem reorder_atomic_on_error (st : SetlistState) (cur : Setlist)
    (oldIndex newIndex : ℕ) (now : Int) (err : String)
    (h : st.currentSetlist = some cur) :
    (reorderSongs (Except.error err) oldIndex newIndex now st).1.currentSetlist = some cur ∧
    (reorderSongs (Except.error err) oldIndex newIndex now st).1.error = some err ∧
    (reorderSongs (Except.error err) oldIndex newIndex now st).2 = Except.error err := by
  simp [reorderSongs, h]

theorem reorder_atomic_on_error_witness :
    demoSetlistState.currentSetlist = some demoSetlist ∧
    (reorderSongs (Except.error "boom") 0 2 9 demoSetlistState).1.currentSetlist
      = some demoSetlist :=
  ⟨rfl, (reorder_atomic_on_error demoSetlistState demoSetlist 0 2 9 "boom" rfl).1⟩

/-- C3 counterexample: the add/remove round trip fails when the song
id is already present.  On the loaded setlist `["a", "b", "c"]`,
adding `"a"` (rejected by the backend's uniqueness constraint, local
state unchanged) and then removing `"a"` ends with `["b", "c"]`, not
the original sequence.  The failure is independent of the backend
model: had the add succeeded, the local sequence would have become
`["a", "b", "c", "a"]` and the remove — a filter dropping every
occurrence — would end at `["b", "c"]` as well. -/
theorem add_remove_round_trip_counterexample :
    demoSetlist.song_ids = ["a", "b", "c"] ∧
    ((removeSongFromSetlist (Except.ok ()) "a" 2
        (addSongToSetlistSpec "a" 1 demoSetlistState).1).1.currentSetlist.map
      Setlist.song_ids) = some ["b", "c"] ∧
    ((removeSongFromSetlist (Except.ok ()) "a" 2
        (addSongToSetlist (Except.ok ()) "a" 1 demoSetlistState).1).1.currentSetlist.map
      Setlist.song_ids) = some ["b", "c"] ∧
    (["b", "c"] : List String) ≠ ["a", "b", "c"] := by decide

/-- C3 (amended): for a song id not already present in the loaded
setlist, `addSongToSetlist` followed by `removeSongFromSetlist` (both
backend calls succeeding) restores the setlist's song-id sequence to
its value before the pair of calls.  When the id is already present
the pair instead ends with every occurrence of the id removed. -/
theorem add_remove_round_trip (st : SetlistState) (cur : Setlist) (songId : String)
    (n1 n2 : Int) (h : st.currentSetlist = some cur) (hx : songId ∉ cur.song_ids) :
    ((removeSongFromSetlist (Except.ok ()) songId n2
        (addSongToSetlistSpec songId n1 st).1).1.currentSetlist.map
      Setlist.song_ids) = some cur.song_ids := by
  have hb : backendAddSongResult st songId = .ok () := by
    simp [backendAddSongResult, h, hx]
  simp only [addSongToSetlistSpec, hb, addSongToSetlist, h, removeSongFromSetlist]
  have h1 : cur.song_ids.filter (fun i => i != songId) = cur.song_ids :=
    List.filter_eq_self.mpr (fun a ha => by
      simp only [bne_iff_ne, ne_eq, decide_eq_true_eq]
      exact fun e => hx (e ▸ ha))
  simp [List.filter_append, h1]

theorem add_remove_round_trip_witness :
    ("x" ∉ demoSetlist.song_ids) ∧
    ((removeSongFromSetlist (Except.ok ()) "x" 2
        (addSongToSetlistSpec "x" 1 demoSetlistState).1).1.currentSetlist.map
      Setlist.song_ids) = some demoSetlist.song_ids :=
  ⟨by decide, add_remove_round_trip demoSetlistState demoSetlist "x" 1 2 rfl (by decide)⟩

/-- C5: starting from a loaded setlist whose song-id sequence has no
duplicates, `addSongToSetlist` (with the backend modelled from the
spec: a duplicate `(setlist_id, song_id)` rejects with
`UniqueViolation`, so the frontend does not append) leaves a sequence
with no duplicates; in particular an id already present never gains a
second occurrence. -/
theorem add_preserves_nodup (st : SetlistState) (cur : Setlist) (songId : String)
    (now : Int) (h : st.currentSetlist = some cur) (hnd : cur.song_ids.Nodup) :
    ∀ ids, ((addSongToSetlistSpec songId now st).1.currentSetlist.map
        Setlist.song_ids) = some ids → ids.Nodup := by
  intro ids hids
  by_cases hmem : songId ∈ cur.song_ids
  · simp [addSongToSetlistSpec, backendAddSongResult, h, hmem, addSongToSetlist] at hids
    exact hids ▸ hnd
  · simp [addSongToSetlistSpec, backendAddSongResult, h, hmem, addSongToSetlist] at hids
    subst hids
    simp [List.nodup_append, hnd, hmem]

theorem add_preserves_nodup_witness :
    demoSetlist.song_ids.Nodup ∧
    ((addSongToSetlistSpec "a" 1 demoSetlistState).1.currentSetlist.map
      Setlist.song_ids) = some ["a", "b", "c"] ∧
    (["a", "b", "c"] : List String).Nodup :=
  ⟨by decide, by decide,
    add_preserves_nodup demoSetlistState demoSetlist "a" 1 rfl (by decide)
      ["a", "b", "c"] (by decide)⟩

/-- C8: for a stem id present in the loaded stem list, two successive
successful `toggleStemMute` calls restore the stem list (hence the
stem's `is_muted` flag) to its value before the pair, and a single
successful toggle flips the found stem's `is_muted` flag. -/
theorem toggle_mute_involution (stemId : String) (st : PlaybackState) (s : Stem)
    (h : findStem stemId st.stems = some s) :
    (toggleStemMute (Except.ok ()) stemId
        (toggleStemMute (Except.ok ()) stemId st).1).1.stems = st.stems ∧
    findStem stemId (toggleStemMute (Except.ok ()) stemId st).1.stems =
      some { s with is_muted := !s.is_muted } := by
  constructor
  · show updateFirstStem stemId flipMute (updateFirstStem stemId flipMute st.stems) = st.stems
    exact updateFirstStem_updateFirstStem stemId flipMute flipMute_id flipMute_flipMute st.stems
  · show findStem stemId (updateFirstStem stemId flipMute st.stems) = _
    rw [findStem_updateFirstStem stemId flipMute flipMute_id, h]
    rfl

theorem toggle_mute_involution_witness :
    findStem "stem-1" stemState.stems = some stemA ∧
    (toggleStemMute (Except.ok ()) "stem-1"
        (toggleStemMute (Except.ok ()) "stem-1" stemState).1).1.stems = stemState.stems :=
  ⟨by decide, (toggle_mute_involution "stem-1" stemState stemA (by decide)).1⟩

theorem cons_eraseIdx_perm (l : List String) (i : ℕ) (h : i < l.length) :
    (l.get ⟨i, h⟩ :: l.eraseIdx i).Perm l := by
  induction l generalizing i with
  | nil => simp at h
  | cons a t ih =>
    cases i with
    | zero => exact List.Perm.refl _
    | succ n =>
      have hn : n < t.length := by simpa using h
      exact (List.Perm.swap a _ _).trans ((ih n hn).cons a)

/-- C4: with both indices in bounds, the id list `reorderSongs`
computes — and, on backend success, both sends to
`reorder_setlist_songs` and installs as the new `song_ids` — is the
original sequence with the element at `oldIndex` removed and
reinserted at `newIndex`: a permutation of the original ids of the
same length, so no id is lost or duplicated and positions stay dense. -/
theorem reorder_dense_permutation (st : SetlistState) (cur : Setlist)
    (oldIndex newIndex : ℕ) (now : Int)
    (h : st.currentSetlist = some cur)
    (hold : oldIndex < cur.song_ids.length)
    (hnew : newIndex < cur.song_ids.length) :
    reorderedSongIds cur.song_ids oldIndex newIndex
        = (cur.song_ids.eraseIdx oldIndex).insertIdx newIndex
            (cur.song_ids.get ⟨oldIndex, hold⟩) ∧
    (reorderedSongIds cur.song_ids oldIndex newIndex).Perm cur.song_ids ∧
    (reorderedSongIds cur.song_ids oldIndex newIndex).length = cur.song_ids.length ∧
    (reorderSongs (Except.ok ()) oldIndex newIndex now st).1.currentSetlist
      = some { cur with
                song_ids := reorderedSongIds cur.song_ids oldIndex newIndex,
                updated_at := now } := by
  have hget : cur.song_ids[oldIndex]? = some (cur.song_ids.get ⟨oldIndex, hold⟩) := by
    rw [List.getElem?_eq_getElem hold]
    rfl
  have hlen : (cur.song_ids.eraseIdx oldIndex).length = cur.song_ids.length - 1 :=
    List.length_eraseIdx_of_lt hold
  have hle : newIndex ≤ (cur.song_ids.eraseIdx oldIndex).length := by omega
  have heq : reorderedSongIds cur.song_ids oldIndex newIndex
      = (cur.song_ids.eraseIdx oldIndex).insertIdx newIndex
          (cur.song_ids.get ⟨oldIndex, hold⟩) := by
    rw [reorderedSongIds, hget]
    rw [min_eq_left hle]
  have hperm : (reorderedSongIds cur.song_ids oldIndex newIndex).Perm cur.song_ids := by
    rw [heq]
    exact (List.perm_insertIdx _ _ hle).trans (cons_eraseIdx_perm _ _ hold)
  refine ⟨heq, hperm, hperm.length_eq, ?_⟩
  simp [reorderSongs, h]

theorem reorder_dense_permutation_witness :
    0 < demoSetlist.song_ids.length ∧ 2 < demoSetlist.song_ids.length ∧
    (reorderedSongIds demoSetlist.song_ids 0 2).Perm demoSetlist.song_ids :=
  ⟨by decide, by decide,
    (reorder_dense_permutation demoSetlistState demoSetlist 0 2 9 rfl
        (by decide) (by decide)).2.1⟩

/-! ### C1 witness fixtures -/

/-- A non-soloed stem mix entry with constant PCM 1. -/
def mixA : StemMix :=
  { gain := 1, muted := false, solo := false, pcm := fun _ => 1 }

/-- A soloed stem mix entry with constant PCM 2. -/
def mixB : StemMix :=
  { gain := 1, muted := false, solo := true, pcm := fun _ => 2 }

/-- C1: when some stem is soloed, every stem with its solo flag unset
has effective gain `0` — regardless of its gain and mute fields — so
it contributes zero to every mixed output sample, and dropping it
leaves every mixed sample unchanged; and in general the effective gain
is `0` exactly when the stem is muted or some stem is soloed and this
one is not, and is the stem's gain otherwise. -/
theorem solo_silences_non_soloed (pre post : List StemMix) (s : StemMix) (idx : ℕ)
    (hs : s.solo = false) (hany : anySolo (pre ++ s :: post) = true) :
    effectiveGain (anySolo (pre ++ s :: post)) s = 0 ∧
    stemContribution (anySolo (pre ++ s :: post)) s idx = 0 ∧
    mixSample (pre ++ s :: post) idx = mixSample (pre ++ post) idx ∧
    (∀ (a : Bool) (t : StemMix),
      effectiveGain a t = if t.muted || (a && !t.solo) then 0 else t.gain) := by
  have heff : effectiveGain true s = 0 := by simp [effectiveGain, hs]
  have hany2 : anySolo (pre ++ post) = true := by
    revert hany
    simp [anySolo, hs]
  refine ⟨by rw [hany]; exact heff, ?_, ?_, fun a t => rfl⟩
  · simp [stemContribution, hany, heff]
  · simp [mixSample, hany, hany2, stemContribution, heff]

theorem solo_silences_non_soloed_witness :
    mixA.solo = false ∧ anySolo [mixB, mixA] = true ∧
    effectiveGain (anySolo [mixB, mixA]) mixA = 0 :=
  ⟨rfl, rfl, (solo_silences_non_soloed [mixB] [] mixA 0 rfl rfl).1⟩

theorem applyMuteToggles_stems (reqs : List String) (st : PlaybackState) :
    (applyMuteToggles reqs st).stems
      = reqs.foldl (fun acc i => updateFirstStem i flipMute acc) st.stems := by
  induction reqs generalizing st with
  | nil => rfl
  | cons r rs ih =>
    show (applyMuteToggles rs (toggleStemMute (Except.ok ()) r st).1).stems = _
    rw [ih]
    rfl

theorem updateFirstStem_of_ne (stemId : String) (f : Stem → Stem) (s : Stem)
    (rest : List Stem) (h : s.id ≠ stemId) :
    updateFirstStem stemId f (s :: rest) = s :: updateFirstStem stemId f rest := by
  simp [updateFirstStem, h]

theorem foldUpdate_skip_head (reqs : List String) (s : Stem) (rest : List Stem)
    (h : ∀ r ∈ reqs, r ≠ s.id) :
    reqs.foldl (fun acc i => updateFirstStem i flipMute acc) (s :: rest)
      = s :: reqs.foldl (fun acc i => updateFirstStem i flipMute acc) rest := by
  induction reqs generalizing rest with
  | nil => rfl
  | cons r rs ih =>
    have hr : s.id ≠ r := fun e => h r (List.mem_cons_self r rs) e.symm
    rw [List.foldl_cons, updateFirstStem_of_ne r flipMute s rest hr, List.foldl_cons]
    exact ih _ (fun r' hr' => h r' (List.mem_cons_of_mem _ hr'))

theorem muteToggleRequests_subset (stems : List Stem) (r : String)
    (hr : r ∈ muteToggleRequests stems) : r ∈ stems.map Stem.id := by
  simp only [muteToggleRequests, List.mem_map, List.mem_filter] at hr
  obtain ⟨t, ⟨htmem, _⟩, htid⟩ := hr
  exact List.mem_map.mpr ⟨t, htmem, htid⟩

theorem muteAll_list (stems : List Stem) (hnd : (stems.map Stem.id).Nodup) :
    (muteToggleRequests stems).foldl (fun acc i => updateFirstStem i flipMute acc) stems
      = stems.map (fun s => { s with is_muted := true }) := by
  induction stems with
  | nil => rfl
  | cons s rest ih =>
    rw [List.map_cons, List.nodup_cons] at hnd
    obtain ⟨hsid, hndr⟩ := hnd
    have hnotin : ∀ r ∈ muteToggleRequests rest, r ≠ s.id := by
      intro r hr e
      exact hsid (e ▸ muteToggleRequests_subset rest r hr)
    by_cases hm : s.is_muted = true
    · have hreq : muteToggleRequests (s :: rest) = muteToggleRequests rest := by
        simp [muteToggleRequests, hm]
      rw [hreq, foldUpdate_skip_head _ _ _ hnotin, ih hndr]
      have hs : ({ s with is_muted := true } : Stem) = s := by rw [← hm]
      rw [List.map_cons, hs]
    · have hm2 : s.is_muted = false := by simpa using hm
      have hreq : muteToggleRequests (s :: rest) = s.id :: muteToggleRequests rest := by
        simp [muteToggleRequests, hm2]
      have hupd : updateFirstStem s.id flipMute (s :: rest) = flipMute s :: rest := by
        simp [updateFirstStem]
      rw [hreq, List.foldl_cons, hupd,
        foldUpdate_skip_head (muteToggleRequests rest) (flipMute s) rest
          (fun r hr e => hnotin r hr e),
        ih hndr]
      have hs : flipMute s = ({ s with is_muted := true } : Stem) := by
        simp [flipMute, hm2]
      rw [List.map_cons, hs]

theorem muted_not_in_requests (stems : List Stem) (s : Stem)
    (hmem : s ∈ stems) (hm : s.is_muted = true)
    (hnd : (stems.map Stem.id).Nodup) :
    s.id ∉ muteToggleRequests stems := by
  intro hin
  simp only [muteToggleRequests, List.mem_map, List.mem_filter] at hin
  obtain ⟨t, ⟨htmem, htunmuted⟩, htid⟩ := hin
  have hts : t = s := List.inj_on_of_nodup_map hnd htmem hmem htid
  rw [hts, hm] at htunmuted
  simp at htunmuted

/-- C9: pressing m or M outside a text input with a non-empty stem
list (of pairwise-distinct stem ids, the data model's uniqueness
invariant) issues one mute-toggle request for exactly the stems whose
`is_muted` is `false`; already-muted stems are never toggled; and once
every requested toggle has succeeded, every stem in the list is muted
(and nothing else about any stem changed). -/
theorem mute_all_shortcut (st : PlaybackState)
    (hne : st.stems ≠ [])
    (hnd : (st.stems.map Stem.id).Nodup) :
    handleKeyDownMute false st.stems
        = (st.stems.filter (fun s => !s.is_muted)).map Stem.id ∧
    (∀ s ∈ st.stems, s.is_muted = true → s.id ∉ handleKeyDownMute false st.stems) ∧
    (applyMuteToggles (handleKeyDownMute false st.stems) st).stems
        = st.stems.map (fun s => { s with is_muted := true }) := by
  have hlen : 0 < st.stems.length := List.length_pos.mpr hne
  have hkey : handleKeyDownMute false st.stems = muteToggleRequests st.stems := by
    simp [handleKeyDownMute, hlen]
  refine ⟨?_, ?_, ?_⟩
  · rw [hkey]
    rfl
  · intro s hs hm
    rw [hkey]
    exact muted_not_in_requests st.stems s hs hm hnd
  · rw [hkey, applyMuteToggles_stems, muteAll_list st.stems hnd]

theorem mute_all_shortcut_witness :
    stemState.stems ≠ [] ∧ (stemState.stems.map Stem.id).Nodup ∧
    (applyMuteToggles (handleKeyDownMute false stemState.stems) stemState).stems
        = stemState.stems.map (fun s => { s with is_muted := true }) :=
  ⟨by decide, by decide,
    (mute_all_shortcut stemState (by decide) (by decide)).2.2⟩

end Trax
